import Mathlib

/-!
Verification of the data-preparation pipeline of the beer-consumption
dashboard (src/app.py).  The pipeline and its aggregates are shallowly
embedded: a raw delimited file is a header plus rows of optional string
tokens, a loaded frame is a list of typed columns, and each pandas call
used by the script (dropna, positional column rename, str.replace
followed by astype float, boolean thresholding, to_datetime, resample
mean, groupby sum, rolling mean, exponentially weighted mean) is given
an explicit executable model over rational numbers.
-/

/-- Errors raised by the embedded pandas operations. -/
inductive PdError where
  | fileNotFound
  | valueError
  | attributeError
  | typeError
  | keyError
  | convError
deriving DecidableEq, Repr

/-- Calendar date as parsed from the raw file. -/
structure Date where
  year : Nat
  month : Nat
  day : Nat
deriving DecidableEq, Repr

/-- Numeric sort key for chronological ordering of dates. -/
def Date.key (d : Date) : Nat :=
  d.year * 10000 + d.month * 100 + d.day

/-- Models the series string replacement of comma by dot used at lines
21 to 24 of app.py; since both the pattern and the replacement are a
single character, it is exactly a character-wise map. -/
def replaceCommaDot (s : String) : String :=
  ⟨s.data.map fun c => if c = ',' then '.' else c⟩

/-- Splits a character list at every occurrence of the separator. -/
def splitOnChar (sep : Char) : List Char → List (List Char)
  | [] => [[]]
  | c :: rest =>
      match splitOnChar sep rest with
      | [] => [[c]]
      | g :: gs => if c = sep then [] :: g :: gs else (c :: g) :: gs

/-- Value of a list of decimal digits. -/
def natOfDigits (cs : List Char) : Nat :=
  cs.foldl (fun n c => 10 * n + (c.toNat - 48)) 0

/-- Models float parsing of the tokens occurring in this dataset: an
optional sign, decimal digits and an optional fractional part after a
dot.  A token using a comma as decimal separator, or any non-numeric
token, fails to parse. -/
def parseFloat? (s : String) : Option ℚ :=
  let sgn : Int := if s.data.head? = some '-' then -1 else 1
  let body : List Char :=
    if s.data.head? = some '-' || s.data.head? = some '+' then s.data.tail
    else s.data
  match splitOnChar '.' body with
  | [ip] =>
      if !ip.isEmpty && ip.all Char.isDigit then
        some (mkRat (sgn * (natOfDigits ip : Int)) 1)
      else none
  | [ip, fp] =>
      if !(ip.isEmpty && fp.isEmpty) && ip.all Char.isDigit
          && fp.all Char.isDigit then
        some (mkRat (sgn * ((natOfDigits ip * 10 ^ fp.length
          + natOfDigits fp : Nat) : Int)) (10 ^ fp.length))
      else none
  | _ => none

/-- Models date parsing for tokens in year-month-day form. -/
def parseDate? (s : String) : Option Date :=
  match splitOnChar '-' s.data with
  | [y, m, d] =>
      if !y.isEmpty && y.all Char.isDigit && !m.isEmpty && m.all Char.isDigit
          && !d.isEmpty && d.all Char.isDigit then
        let mv := natOfDigits m
        let dv := natOfDigits d
        if 1 ≤ mv && mv ≤ 12 && 1 ≤ dv && dv ≤ 31 then
          some ⟨natOfDigits y, mv, dv⟩
        else none
      else none
  | _ => none

/-- Decidable equality of fallible results, used to evaluate the
pipeline on concrete inputs. -/
instance {ε α : Type} [DecidableEq ε] [DecidableEq α] :
    DecidableEq (Except ε α)
  | .ok a, .ok b =>
      if h : a = b then isTrue (by rw [h])
      else isFalse (by intro hh; cases hh; exact h rfl)
  | .error e, .error f =>
      if h : e = f then isTrue (by rw [h])
      else isFalse (by intro hh; cases hh; exact h rfl)
  | .ok _, .error _ => isFalse (by intro hh; cases hh)
  | .error _, .ok _ => isFalse (by intro hh; cases hh)

/-- Typed column of a loaded frame.  A floatCol is a float64 column where
none stands for NaN; an objCol is an object-dtype column of strings where
none stands for a missing value. -/
inductive Col where
  | floatCol (xs : List (Option ℚ))
  | objCol (xs : List (Option String))
  | boolCol (xs : List Bool)
  | dateCol (xs : List Date)
deriving DecidableEq, Repr

/-- Number of entries of a column. -/
def Col.length : Col → Nat
  | .floatCol xs => xs.length
  | .objCol xs => xs.length
  | .boolCol xs => xs.length
  | .dateCol xs => xs.length

/-- Whether the entry at row index i is missing (NaN). -/
def Col.missingAt : Col → Nat → Bool
  | .floatCol xs, i => xs.get? i == some none
  | .objCol xs, i => xs.get? i == some none
  | .boolCol _, _ => false
  | .dateCol _, _ => false

/-- Restriction of a column to the given list of row indices. -/
def Col.select : Col → List Nat → Col
  | .floatCol xs, keep => .floatCol (keep.map fun i => xs.getD i none)
  | .objCol xs, keep => .objCol (keep.map fun i => xs.getD i none)
  | .boolCol xs, keep => .boolCol (keep.map fun i => xs.getD i false)
  | .dateCol xs, keep => .dateCol (keep.map fun i => xs.getD i ⟨0, 1, 1⟩)

/-- Raw delimited file: a header row of column names and data rows of
optional tokens, one per column; none is an empty (missing) field. -/
structure RawCSV where
  header : List String
  rows : List (List (Option String))
deriving DecidableEq, Repr

/-- Loaded frame: column names and typed columns, positionally matched. -/
structure DataFrame where
  names : List String
  cols : List Col
deriving DecidableEq, Repr

/-- Number of rows of a frame (length of its first column). -/
def DataFrame.nrows (df : DataFrame) : Nat :=
  (df.cols.head?.map Col.length).getD 0

/-- Tokens of the j-th raw column, in row order. -/
def colTokens (f : RawCSV) (j : Nat) : List (Option String) :=
  f.rows.map fun r => (r.get? j).join

/-- Models dtype inference of read_csv for one column: a column whose
present tokens all parse as floats becomes a float64 column, any other
nonempty column stays an object column of strings; with no data rows the
column is an empty object column. -/
def inferCol (toks : List (Option String)) : Col :=
  if toks.isEmpty then .objCol toks
  else if toks.all (fun t => match t with
      | none => true
      | some s => (parseFloat? s).isSome) then
    .floatCol (toks.map fun t => t.bind parseFloat?)
  else .objCol toks

/-- Models pd.read_csv at line 12 of app.py: an absent file raises, a
present file is parsed into a frame with per-column dtype inference. -/
def read_csv (file : Option RawCSV) : Except PdError DataFrame :=
  match file with
  | none => .error .fileNotFound
  | some f =>
      .ok ⟨f.header, (List.range f.header.length).map fun j =>
        inferCol (colTokens f j)⟩

/-- Whether row i of the frame has a missing value in some column. -/
def DataFrame.rowHasNA (df : DataFrame) (i : Nat) : Bool :=
  df.cols.any fun c => c.missingAt i

/-- Models beer_df.dropna() at line 15 of app.py: keep exactly the rows
with no missing value in any column. -/
def dropna (df : DataFrame) : DataFrame :=
  let keep := (List.range df.nrows).filter fun i => !(df.rowHasNA i)
  ⟨df.names, df.cols.map fun c => c.select keep⟩

/-- Models the positional column rename at line 18 of app.py: assigning
df.columns raises a ValueError when the new name list length differs
from the frame column count. -/
def setColumns (names : List String) (df : DataFrame) :
    Except PdError DataFrame :=
  if df.names.length = names.length then .ok ⟨names, df.cols⟩
  else .error .valueError

/-- Replaces the named column by the image of a fallible column
operation, as the assignments at lines 21 to 26 of app.py do. -/
def DataFrame.applyCol (df : DataFrame) (name : String)
    (f : Col → Except PdError Col) : Except PdError DataFrame :=
  match df.names.indexOf? name with
  | none => .error .keyError
  | some j =>
      match df.cols.get? j with
      | none => .error .keyError
      | some c => (f c).map fun c2 => ⟨df.names, df.cols.set j c2⟩

/-- Models the series expression str.replace of comma by dot followed by
astype float, used at lines 21 to 24 of app.py.  On an object column
every string has its commas replaced by dots and is then parsed as a
float, raising a conversion error when some value is non-numeric; the
str accessor raises an AttributeError on a column that is not of object
dtype, in particular on a column already numeric. -/
def strReplaceAstypeFloat : Col → Except PdError Col
  | .objCol xs =>
      let rep := xs.map fun t => t.map replaceCommaDot
      if rep.all (fun t => match t with
          | none => true
          | some s => (parseFloat? s).isSome) then
        .ok (.floatCol (rep.map fun t => t.bind parseFloat?))
      else .error .convError
  | _ => .error .attributeError

/-- Models the comparison of the weekend flag column with 0.5 at line 25
of app.py: on a numeric column each present value is compared strictly
with one half and a NaN compares false; comparing a nonempty column of
strings with a float raises a TypeError, while the comparison on an
empty column yields an empty boolean column. -/
def gtHalf : Col → Except PdError Col
  | .floatCol xs =>
      .ok (.boolCol (xs.map fun t => match t with
        | some q => decide ((1 : ℚ) / 2 < q)
        | none => false))
  | .objCol xs =>
      if xs.isEmpty then .ok (.boolCol []) else .error .typeError
  | _ => .error .typeError

/-- Models pd.to_datetime at line 26 of app.py for the date column: each
string is parsed as a calendar date and unparseable values raise. -/
def toDatetimeCol : Col → Except PdError Col
  | .objCol xs =>
      if xs.all (fun t => match t with
          | none => true
          | some s => (parseDate? s).isSome) then
        .ok (.dateCol (xs.map fun t => (t.bind parseDate?).getD ⟨0, 1, 1⟩))
      else .error .convError
  | .dateCol xs => .ok (.dateCol xs)
  | _ => .error .typeError

/-- Canonical column names assigned at line 18 of app.py. -/
def canonicalNames : List String :=
  ["date", "avg_temp", "min_temp", "max_max", "precipitation",
   "is_weekend", "consumption"]

/-- Models load_and_preprocess_data of app.py, lines 10 to 28: read the
file, drop rows with missing values, rename the seven columns
positionally, normalize and convert the four comma-decimal numeric
columns, threshold the weekend flag and parse the dates. -/
def load_and_preprocess_data (file : Option RawCSV) :
    Except PdError DataFrame := do
  let beer0 ← read_csv file
  let beer1 := dropna beer0
  let beer2 ← setColumns canonicalNames beer1
  let beer3 ← beer2.applyCol "avg_temp" strReplaceAstypeFloat
  let beer4 ← beer3.applyCol "min_temp" strReplaceAstypeFloat
  let beer5 ← beer4.applyCol "max_max" strReplaceAstypeFloat
  let beer6 ← beer5.applyCol "precipitation" strReplaceAstypeFloat
  let beer7 ← beer6.applyCol "is_weekend" gtHalf
  let beer8 ← beer7.applyCol "date" toDatetimeCol
  return beer8

/-- Observation: one cleaned daily record, per the canonical columns. -/
structure Obs where
  date : Date
  avg_temp : ℚ
  min_temp : ℚ
  max_max : ℚ
  precipitation : ℚ
  is_weekend : Bool
  consumption : ℚ
deriving DecidableEq, Repr

/-- Zips the seven cleaned columns into records; fails when a numeric
entry is missing or the column lengths disagree. -/
def zipObs : List Date → List (Option ℚ) → List (Option ℚ) →
    List (Option ℚ) → List (Option ℚ) → List Bool → List (Option ℚ) →
    Option (List Obs)
  | [], [], [], [], [], [], [] => some []
  | d :: ds, some a :: as, some b :: bs, some c :: cs, some p :: ps,
      w :: ws, some q :: qs =>
      (zipObs ds as bs cs ps ws qs).map (⟨d, a, b, c, p, w, q⟩ :: ·)
  | _, _, _, _, _, _, _ => none

/-- Numeric view of a column: a float column directly; an empty object
column, as a file with no data rows leaves for the never-converted
consumption column, is numerically empty. -/
def Col.floats? : Col → Option (List (Option ℚ))
  | .floatCol xs => some xs
  | .objCol [] => some []
  | _ => none

/-- Reads the cleaned frame as a list of Observations. -/
def toObs (df : DataFrame) : Option (List Obs) :=
  match df.cols with
  | [.dateCol ds, .floatCol a, .floatCol b, .floatCol c, .floatCol p,
      .boolCol w, qc] =>
      if df.names = canonicalNames then
        qc.floats?.bind fun q => zipObs ds a b c p w q
      else none
  | _ => none

/-- Arithmetic mean of a list of rationals. -/
def listMean (xs : List ℚ) : ℚ := xs.sum / xs.length

/-- Stable insertion of a record into a list sorted by date key. -/
def insertByDate (o : Obs) : List Obs → List Obs
  | [] => [o]
  | x :: xs =>
      if x.date.key ≤ o.date.key then x :: insertByDate o xs
      else o :: x :: xs

/-- Models sort_values by date at lines 113 and 133 of app.py. -/
def sortByDate (os : List Obs) : List Obs :=
  os.foldr insertByDate []

/-- Consumption values in chronological order. -/
def consumptionSeries (os : List Obs) : List ℚ :=
  (sortByDate os).map (·.consumption)

/-- Models the monthly resample-mean of precipitation at line 63 of
app.py: mean precipitation for each calendar month occurring in the
data, keyed by year and month in chronological order. -/
def monthly_avg_precip (os : List Obs) : List ((Nat × Nat) × ℚ) :=
  let keys := ((sortByDate os).map fun o =>
    (o.date.year, o.date.month)).dedup
  keys.map fun ym =>
    (ym, listMean ((os.filter fun o =>
      o.date.year == ym.1 && o.date.month == ym.2).map (·.precipitation)))

/-- Day-of-week of a calendar date by the Zeller congruence, matching
dt.day_name at line 78 of app.py. -/
def Date.dayName (d : Date) : String :=
  let ym : Nat × Nat :=
    if d.month ≤ 2 then (d.year - 1, d.month + 12) else (d.year, d.month)
  let k := ym.1 % 100
  let j := ym.1 / 100
  let h := (d.day + (13 * (ym.2 + 1)) / 5 + k + k / 4 + j / 4 + 5 * j) % 7
  (["Saturday", "Sunday", "Monday", "Tuesday", "Wednesday", "Thursday",
    "Friday"].getD h "")

/-- Fixed weekday order used by the box plot at line 79 of app.py. -/
def weekday_order : List String :=
  ["Monday", "Tuesday", "Wednesday", "Thursday", "Friday", "Saturday",
   "Sunday"]

/-- Models the weekday grouping behind the box plot at line 82 of
app.py: for each weekday in the fixed order, the full list of
consumption values of records falling on that weekday. -/
def weekday_groups (os : List Obs) : List (String × List ℚ) :=
  weekday_order.map fun w =>
    (w, (os.filter fun o => o.date.dayName == w).map (·.consumption))

/-- One cell of the year-over-month pivot at line 95 of app.py: total
consumption of the records of the given year and month. -/
def monthly_cell (os : List Obs) (y m : Nat) : ℚ :=
  ((os.filter fun o => o.date.year == y && o.date.month == m).map
    (·.consumption)).sum

/-- Models the groupby-sum feeding the pivot at line 95 of app.py: the
year-month keys occurring in the data with their consumption totals. -/
def monthly_data (os : List Obs) : List ((Nat × Nat) × ℚ) :=
  let keys := (os.map fun o => (o.date.year, o.date.month)).dedup
  keys.map fun ym => (ym, monthly_cell os ym.1 ym.2)

/-- Models Series.rolling(w).mean(): entry i is NaN (none) while fewer
than w values are available, and otherwise the mean of the window of the
w values ending at i. -/
def rollingMean (w : Nat) (xs : List ℚ) : List (Option ℚ) :=
  (List.range xs.length).map fun i =>
    if i + 1 < w then none
    else some (((xs.drop (i + 1 - w)).take w).sum / (w : ℚ))

/-- The rolling-average series computed at lines 112 to 114 of app.py:
7-day rolling mean of consumption after sorting by date. -/
def rolling_avg (os : List Obs) : List (Option ℚ) :=
  rollingMean 7 (consumptionSeries os)

/-- Recursive part of the non-adjusted exponentially weighted mean:
each output is alpha times the input plus one minus alpha times the
previous output. -/
def ewmRec (α : ℚ) (prev : ℚ) : List ℚ → List ℚ
  | [] => []
  | x :: xs =>
      (α * x + (1 - α) * prev) :: ewmRec α (α * x + (1 - α) * prev) xs

/-- Models Series.ewm(span, adjust=False).mean(): the first output is
the first input and each later output follows the non-adjusted
recursion with alpha equal to 2 divided by span plus 1. -/
def ewmMean (span : Nat) : List ℚ → List ℚ
  | [] => []
  | x :: xs => x :: ewmRec (2 / ((span : ℚ) + 1)) x xs

/-- The softened trend computed at lines 132 to 134 of app.py: span-30
non-adjusted exponentially weighted mean of consumption after sorting
by date. -/
def soft_trend (os : List Obs) : List ℚ :=
  ewmMean 30 (consumptionSeries os)

/-- Models lines 61 to 63 of app.py: the chart copies the cached frame,
indexes the copy by date and resamples it; the cached collection is
returned unchanged beside the aggregate. -/
def chart_precip (beer : List Obs) :
    (List ((Nat × Nat) × ℚ)) × List Obs :=
  let monthly_df_precip := beer
  (monthly_avg_precip monthly_df_precip, beer)

/-- Models lines 77 to 82 of app.py: the chart copies the cached frame,
adds a weekday column to the copy and groups it. -/
def chart_weekday (beer : List Obs) :
    (List (String × List ℚ)) × List Obs :=
  let weekdays_df := beer
  (weekday_groups weekdays_df, beer)

/-- Models lines 92 to 95 of app.py: the chart copies the cached frame,
adds year and month columns to the copy and aggregates it. -/
def chart_yearly (beer : List Obs) :
    (List ((Nat × Nat) × ℚ)) × List Obs :=
  let yearly_consumption_df := beer
  (monthly_data yearly_consumption_df, beer)

/-- Models lines 112 to 114 of app.py: the chart copies the cached
frame, sorts the copy and adds the rolling average to it. -/
def chart_daily (beer : List Obs) :
    (List (Option ℚ)) × List Obs :=
  let daily_consumption_df := beer
  (rolling_avg daily_consumption_df, beer)

/-- Models lines 132 to 134 of app.py: the chart copies the cached
frame, sorts the copy and adds the softened trend to it. -/
def chart_soft (beer : List Obs) : (List ℚ) × List Obs :=
  let softened_daily_consumption := beer
  (soft_trend softened_daily_consumption, beer)

/-- All five chart computations run in script order, threading the
cached collection through each step. -/
def render_all (beer : List Obs) :
    ((List ((Nat × Nat) × ℚ)) × (List (String × List ℚ)) ×
      (List ((Nat × Nat) × ℚ)) × (List (Option ℚ)) × (List ℚ)) ×
      List Obs :=
  let r1 := chart_precip beer
  let r2 := chart_weekday r1.2
  let r3 := chart_yearly r2.2
  let r4 := chart_daily r3.2
  let r5 := chart_soft r4.2
  ((r1.1, r2.1, r3.1, r4.1, r5.1), r5.2)

/-- Header-only raw file with the original seven column names. -/
def emptyFile : RawCSV :=
  ⟨["Data", "Temperatura Media (C)", "Temperatura Minima (C)",
    "Temperatura Maxima (C)", "Precipitacao (mm)", "Final de Semana",
    "Consumo de cerveja (litros)"], []⟩

/-- Raw file in the documented schema whose four temperature and
precipitation columns already use dot decimal separators, so that
read_csv infers them as numeric columns. -/
def numericFile : RawCSV :=
  ⟨["Data", "Temperatura Media (C)", "Temperatura Minima (C)",
    "Temperatura Maxima (C)", "Precipitacao (mm)", "Final de Semana",
    "Consumo de cerveja (litros)"],
   [[some "2015-01-01", some "27.3", some "23.9", some "32.5",
     some "0.0", some "0", some "25.461"]]⟩

/-- Observation with the given date and consumption and zeroed weather
fields, for concrete scenarios. -/
def mkObs (d : Date) (c : ℚ) : Obs :=
  ⟨d, 0, 0, 0, 0, false, c⟩

/-- Eight consecutive days (Monday 2015-01-05 through the following
Monday) with the consumption values of the concrete rolling-mean
scenario of the specification. -/
def scenarioObs : List Obs :=
  [mkObs ⟨2015, 1, 5⟩ 10, mkObs ⟨2015, 1, 6⟩ 12, mkObs ⟨2015, 1, 7⟩ 11,
   mkObs ⟨2015, 1, 8⟩ 9, mkObs ⟨2015, 1, 9⟩ 14, mkObs ⟨2015, 1, 10⟩ 20,
   mkObs ⟨2015, 1, 11⟩ 18, mkObs ⟨2015, 1, 12⟩ 13]

/-- Three-row frame with one complete row and two rows that each have a
missing value, for concrete checks of the dropna step. -/
def sampleFrame : DataFrame :=
  ⟨["a", "b"],
   [Col.floatCol [some 1, none, some 3],
    Col.objCol [some "x", some "y", none]]⟩

/-- C7 check: an absent input file makes the pipeline return the
missing-input error; no frame is produced and no later step runs. -/
theorem missing_input_propagates :
    load_and_preprocess_data none = Except.error PdError.fileNotFound :=
  rfl

/-- C4 helper: the boolean column produced by thresholding. -/
theorem gtHalf_eq (xs : List (Option ℚ)) :
    gtHalf (Col.floatCol xs) =
      Except.ok (Col.boolCol (xs.map fun t => match t with
        | some q => decide ((1 : ℚ) / 2 < q)
        | none => false)) := rfl

/-- C4: thresholding the weekend flag sets the cleaned boolean to true
exactly when the raw value strictly exceeds one half, and a raw value of
exactly one half yields false. -/
theorem is_weekend_threshold (xs : List (Option ℚ)) (i : Nat) (q : ℚ)
    (h : xs.get? i = some (some q)) :
    ∃ bs, gtHalf (Col.floatCol xs) = Except.ok (Col.boolCol bs) ∧
      (bs.get? i = some true ↔ (1 : ℚ) / 2 < q) ∧
      (q = 1 / 2 → bs.get? i = some false) := by
  refine ⟨_, gtHalf_eq xs, ?_, ?_⟩
  · rw [List.get?_map, h]
    simp
  · intro hq
    rw [List.get?_map, h, hq]
    simp

/-- C4 witness: on the column with raw values one half and one, the
first cleaned flag is false and the second is true. -/
theorem is_weekend_threshold_check :
    ∃ bs, gtHalf (Col.floatCol [some ((1 : ℚ) / 2), some 1]) =
        Except.ok (Col.boolCol bs) ∧ bs.get? 0 = some false := by
  obtain ⟨bs, h1, _, h3⟩ :=
    is_weekend_threshold [some ((1 : ℚ) / 2), some 1] 0 (1 / 2) rfl
  exact ⟨bs, h1, h3 rfl⟩

/-- Reduction of a successful step of the Except monad. -/
theorem except_ok_bind {α β : Type} (a : α) (k : α → Except PdError β) :
    (Except.ok a >>= k) = k a := rfl

/-- Reduction of a failing step of the Except monad. -/
theorem except_error_bind {α β : Type} (e : PdError)
    (k : α → Except PdError β) :
    ((Except.error e : Except PdError α) >>= k) = Except.error e := rfl

/-- C10: the rename step assigns exactly the seven canonical names and
keeps the columns, and on any parsed input with a column count other
than seven the pipeline stops at the rename step with a ValueError. -/
theorem rename_assigns_canonical_names :
    (∀ f : RawCSV, f.header.length ≠ 7 →
      load_and_preprocess_data (some f) = Except.error PdError.valueError) ∧
    (∀ df df2 : DataFrame, setColumns canonicalNames df = Except.ok df2 →
      df2.names = canonicalNames ∧ df2.cols = df.cols) := by
  constructor
  · intro f h
    have hset : setColumns canonicalNames (dropna ⟨f.header,
        (List.range f.header.length).map fun j => inferCol (colTokens f j)⟩) =
        Except.error PdError.valueError := by
      unfold setColumns
      rw [if_neg]
      simpa [dropna, canonicalNames] using h
    simp only [load_and_preprocess_data, read_csv, except_ok_bind, hset,
      except_error_bind]
  · intro df df2 h
    unfold setColumns at h
    split at h
    · cases h
      exact ⟨rfl, rfl⟩
    · cases h

/-- C1 counterexample: on a raw file whose numeric columns already use
dot decimals, read_csv infers numeric columns and the conversion step
raises an AttributeError instead of leaving the values unchanged, so
the whole pipeline fails on such an input. -/
theorem numeric_column_not_left_unchanged :
    load_and_preprocess_data (some numericFile) =
        Except.error PdError.attributeError ∧
      strReplaceAstypeFloat (Col.floatCol [some ((273 : ℚ) / 10)]) =
        Except.error PdError.attributeError :=
  ⟨rfl, rfl⟩

/-- C1 (amended): on a textual column every comma is replaced by a dot
before float parsing, the conversion fails with an error when some value
is non-numeric after normalization, the raw value 1 comma 5 converts to
three halves and the raw value abc raises; a column that is already
numeric is not left unchanged: the str accessor raises an
AttributeError on it. -/
theorem conversion_normalizes_commas :
    (∀ xs : List (Option String),
      (∀ s, some s ∈ xs → (parseFloat? (replaceCommaDot s)).isSome = true) →
      strReplaceAstypeFloat (Col.objCol xs) =
        Except.ok (Col.floatCol (xs.map fun t =>
          t.bind fun s => parseFloat? (replaceCommaDot s)))) ∧
    (∀ (xs : List (Option String)) (s : String), some s ∈ xs →
      parseFloat? (replaceCommaDot s) = none →
      strReplaceAstypeFloat (Col.objCol xs) =
        Except.error PdError.convError) ∧
    strReplaceAstypeFloat (Col.objCol [some "1,5"]) =
      Except.ok (Col.floatCol [some ((3 : ℚ) / 2)]) ∧
    strReplaceAstypeFloat (Col.objCol [some "abc"]) =
      Except.error PdError.convError ∧
    (∀ xs : List (Option ℚ),
      strReplaceAstypeFloat (Col.floatCol xs) =
        Except.error PdError.attributeError) := by
  refine ⟨?_, ?_, ?_, rfl, fun xs => rfl⟩
  · intro xs h
    have hcond : (List.map (fun t => Option.map replaceCommaDot t) xs).all
        (fun t => match t with
          | none => true
          | some s => (parseFloat? s).isSome) = true := by
      rw [List.all_eq_true]
      intro t ht
      rw [List.mem_map] at ht
      obtain ⟨t0, ht0, rfl⟩ := ht
      cases t0 with
      | none => rfl
      | some s => simpa using h s ht0
    simp only [strReplaceAstypeFloat, hcond, if_true]
    rw [List.map_map]
    congr 2
    refine List.map_congr_left fun t ht => ?_
    cases t <;> rfl
  · intro xs s hs hnone
    have hcond : (List.map (fun t => Option.map replaceCommaDot t) xs).all
        (fun t => match t with
          | none => true
          | some s => (parseFloat? s).isSome) = false := by
      rw [List.all_eq_false]
      exact ⟨some (replaceCommaDot s), List.mem_map.mpr ⟨some s, hs, rfl⟩,
        by simp [hnone]⟩
    simp only [strReplaceAstypeFloat, hcond, Bool.false_eq_true, if_false]
  · have h15 : strReplaceAstypeFloat (Col.objCol [some "1,5"]) =
        Except.ok (Col.floatCol [some (mkRat 3 2)]) := rfl
    rw [h15]
    norm_num [Rat.mkRat_eq_div]

/-- C1 witness: the textual branch applied to the single raw value
1 comma 5 produces the parsed value three halves. -/
theorem conversion_normalizes_commas_check :
    strReplaceAstypeFloat (Col.objCol [some "1,5"]) =
      Except.ok (Col.floatCol ([some "1,5"].map fun t =>
        t.bind fun s => parseFloat? (replaceCommaDot s))) :=
  conversion_normalizes_commas.1 [some "1,5"] (by
    intro s hs
    obtain rfl : s = "1,5" := by simpa using hs
    rfl)

/-- C10 witness: a one-column parsed file makes the pipeline fail with a
ValueError, and renaming a seven-column frame yields exactly the
canonical names with the columns kept. -/
theorem rename_assigns_canonical_names_check :
    load_and_preprocess_data (some ⟨["a"], []⟩) =
        Except.error PdError.valueError ∧
      (DataFrame.mk canonicalNames ([] : List Col)).names = canonicalNames :=
  ⟨rename_assigns_canonical_names.1 ⟨["a"], []⟩ (by decide),
   (rename_assigns_canonical_names.2 ⟨canonicalNames, []⟩
     ⟨canonicalNames, []⟩ rfl).1⟩

/-- C2: in the 7-day trailing rolling mean of the chronologically sorted
consumption series, the entry at a 0-based index below 6 is absent, and
the entry at any index of at least 6 is the arithmetic mean of the seven
most recent values ending at that index. -/
theorem rolling_mean_window (os : List Obs) (i : Nat)
    (hi : i < (consumptionSeries os).length) :
    (i < 6 → (rolling_avg os).get? i = some none) ∧
    (6 ≤ i → (rolling_avg os).get? i =
      some (some (listMean
        (((consumptionSeries os).drop (i - 6)).take 7)))) := by
  have hget : (rolling_avg os).get? i =
      some (if i + 1 < 7 then none
        else some ((((consumptionSeries os).drop (i + 1 - 7)).take 7).sum
          / (7 : ℚ))) := by
    rw [rolling_avg, rollingMean, List.get?_map, List.get?_range hi]
    rfl
  constructor
  · intro h6
    rw [hget, if_pos (by omega)]
  · intro h6
    rw [hget, if_neg (by omega)]
    have hlen : (((consumptionSeries os).drop (i - 6)).take 7).length = 7 := by
      rw [List.length_take, List.length_drop]
      omega
    have hidx : i + 1 - 7 = i - 6 := by omega
    rw [hidx]
    simp only [listMean, hlen]
    norm_num

/-- C2 witness: on the eight-day scenario the rolling mean at index 7
exists and equals the mean of the last seven values, which is 97
sevenths. -/
theorem rolling_mean_window_check :
    7 < (consumptionSeries scenarioObs).length ∧
    (rolling_avg scenarioObs).get? 7 =
      some (some (listMean
        (((consumptionSeries scenarioObs).drop 1).take 7))) ∧
    listMean (((consumptionSeries scenarioObs).drop 1).take 7) =
      97 / 7 := by
  refine ⟨by decide, ?_, ?_⟩
  · exact (rolling_mean_window scenarioObs 7 (by decide)).2 (by norm_num)
  · have hcs : ((consumptionSeries scenarioObs).drop 1).take 7 =
        [12, 11, 9, 14, 20, 18, 13] := rfl
    rw [hcs]
    simp [listMean]
    norm_num

/-- Length of the recursive exponentially weighted series. -/
theorem ewmRec_length (α p : ℚ) (xs : List ℚ) :
    (ewmRec α p xs).length = xs.length := by
  induction xs generalizing p with
  | nil => rfl
  | cons x rest ih => simp [ewmRec, ih]

/-- Length of the exponentially weighted mean series. -/
theorem ewmMean_length (span : Nat) (xs : List ℚ) :
    (ewmMean span xs).length = xs.length := by
  cases xs with
  | nil => rfl
  | cons x rest => simp [ewmMean, ewmRec_length]

/-- Recursion satisfied by the tail of the exponentially weighted mean:
entry i mixes input i with the previous output, the seed standing in for
the output before index 0. -/
theorem ewmRec_getD (α p : ℚ) (xs : List ℚ) (i : Nat)
    (hi : i < xs.length) :
    (ewmRec α p xs).getD i 0 =
      α * xs.getD i 0 + (1 - α) *
        (if i = 0 then p else (ewmRec α p xs).getD (i - 1) 0) := by
  induction xs generalizing p i with
  | nil => simp at hi
  | cons x rest ih =>
    cases i with
    | zero => simp [ewmRec]
    | succ j =>
      simp only [ewmRec, List.getD_cons_succ]
      have hj : j < rest.length := by simpa using hi
      rw [ih _ j hj]
      cases j with
      | zero => simp
      | succ k => simp

/-- C3: the softened consumption trend has one entry per record of the
sorted series, starts at the first consumption value, follows the
non-adjusted recursion with alpha equal to 2 over 31 at every later
index, and depends only on the sorted consumption series. -/
theorem ewma_recursion (os : List Obs) :
    (soft_trend os).length = (consumptionSeries os).length ∧
    (consumptionSeries os ≠ [] →
      (soft_trend os).getD 0 0 = (consumptionSeries os).getD 0 0) ∧
    (∀ i, 0 < i → i < (consumptionSeries os).length →
      (soft_trend os).getD i 0 =
        2 / 31 * (consumptionSeries os).getD i 0 +
          (1 - 2 / 31) * (soft_trend os).getD (i - 1) 0) ∧
    (∀ os2, consumptionSeries os2 = consumptionSeries os →
      soft_trend os2 = soft_trend os) := by
  have halpha : (2 : ℚ) / ((30 : Nat) + 1) = 2 / 31 := by norm_num
  refine ⟨ewmMean_length 30 (consumptionSeries os), ?_, ?_, ?_⟩
  · intro hne
    show (ewmMean 30 (consumptionSeries os)).getD 0 0 = _
    cases h : consumptionSeries os with
    | nil => exact absurd h hne
    | cons x rest => simp [ewmMean]
  · intro i h0 hi
    show (ewmMean 30 (consumptionSeries os)).getD i 0 = _
    cases h : consumptionSeries os with
    | nil =>
        rw [h] at hi
        simp at hi
    | cons x rest =>
      rw [h] at hi
      cases i with
      | zero => omega
      | succ j =>
        have hj : j < rest.length := by simpa using hi
        show (ewmMean 30 (x :: rest)).getD (j + 1) 0 = _
        simp only [ewmMean, List.getD_cons_succ]
        rw [ewmRec_getD _ _ _ j hj, halpha]
        have hst : (soft_trend os).getD (j + 1 - 1) 0 =
            (x :: ewmRec (2 / 31) x rest).getD j 0 := by
          show (ewmMean 30 (consumptionSeries os)).getD (j + 1 - 1) 0 = _
          rw [h]
          simp only [Nat.add_sub_cancel, ewmMean, halpha]
        rw [hst]
        cases j with
        | zero => simp
        | succ k => simp
  · intro os2 h
    show ewmMean 30 (consumptionSeries os2) = _
    rw [h]
    rfl

/-- C3 witness: on the eight-day scenario the softened trend at index 1
mixes the second consumption value with the trend at index 0 using
alpha equal to 2 over 31. -/
theorem ewma_recursion_check :
    1 < (consumptionSeries scenarioObs).length ∧
    (soft_trend scenarioObs).getD 1 0 =
      2 / 31 * (consumptionSeries scenarioObs).getD 1 0 +
        (1 - 2 / 31) * (soft_trend scenarioObs).getD 0 0 :=
  ⟨by decide,
   (ewma_recursion scenarioObs).2.2.1 1 Nat.one_pos (by decide)⟩

/-- Selecting rows yields one entry per selected index. -/
theorem Col.length_select (c : Col) (keep : List Nat) :
    (c.select keep).length = keep.length := by
  cases c <;> simp [Col.select, Col.length]

/-- Selecting only in-range non-missing rows yields a column with no
missing entry. -/
theorem Col.select_not_missing (c : Col) (keep : List Nat)
    (hk : ∀ k ∈ keep, k < c.length ∧ c.missingAt k = false) (i : Nat) :
    (c.select keep).missingAt i = false := by
  cases c with
  | boolCol xs => rfl
  | dateCol xs => rfl
  | floatCol xs =>
      simp only [Col.select, Col.missingAt]
      rw [beq_eq_false_iff_ne]
      intro heq
      rw [List.get?_map] at heq
      cases hg : keep.get? i with
      | none => rw [hg] at heq; cases heq
      | some k =>
          rw [hg] at heq
          simp only [Option.map_some'] at heq
          have hmem := List.get?_mem hg
          obtain ⟨hlt, hmiss⟩ := hk k hmem
          rw [Option.some_inj] at heq
          rw [List.getD_eq_get?] at heq
          cases hv : xs.get? k with
          | none => exact absurd (List.get?_eq_none.mp hv) (by
              simp only [Col.length] at hlt
              omega)
          | some v =>
              rw [hv] at heq
              simp only [Option.getD_some] at heq
              rw [Col.missingAt, beq_eq_false_iff_ne] at hmiss
              exact hmiss (by rw [hv, heq])
  | objCol xs =>
      simp only [Col.select, Col.missingAt]
      rw [beq_eq_false_iff_ne]
      intro heq
      rw [List.get?_map] at heq
      cases hg : keep.get? i with
      | none => rw [hg] at heq; cases heq
      | some k =>
          rw [hg] at heq
          simp only [Option.map_some'] at heq
          have hmem := List.get?_mem hg
          obtain ⟨hlt, hmiss⟩ := hk k hmem
          rw [Option.some_inj] at heq
          rw [List.getD_eq_get?] at heq
          cases hv : xs.get? k with
          | none => exact absurd (List.get?_eq_none.mp hv) (by
              simp only [Col.length] at hlt
              omega)
          | some v =>
              rw [hv] at heq
              simp only [Option.getD_some] at heq
              rw [Col.missingAt, beq_eq_false_iff_ne] at hmiss
              exact hmiss (by rw [hv, heq])

/-- C5: the dropna step keeps exactly the rows with no missing field:
the retained row count equals the number of complete input rows, and no
retained entry of any column is missing. -/
theorem dropna_keeps_exactly_complete_rows (df : DataFrame)
    (hwf : ∀ c ∈ df.cols, c.length = df.nrows) :
    (dropna df).nrows =
      ((List.range df.nrows).filter fun i => !(df.rowHasNA i)).length ∧
    (∀ c2 ∈ (dropna df).cols, ∀ i, c2.missingAt i = false) := by
  constructor
  · rcases hc : df.cols with _ | ⟨c, cs⟩
    · simp [dropna, DataFrame.nrows, hc]
    · simp [dropna, DataFrame.nrows, hc, Col.length_select]
  · intro c2 hc2 i
    simp only [dropna] at hc2
    rw [List.mem_map] at hc2
    obtain ⟨c, hcmem, rfl⟩ := hc2
    apply Col.select_not_missing
    intro k hk
    rw [List.mem_filter, List.mem_range] at hk
    obtain ⟨hlt, hna⟩ := hk
    have hfalse : df.rowHasNA k = false := by simpa using hna
    rw [DataFrame.rowHasNA, List.any_eq_false] at hfalse
    refine ⟨?_, ?_⟩
    · rw [hwf c hcmem]
      exact hlt
    · simpa using hfalse c hcmem

/-- C5 witness: on the three-row sample frame with two incomplete rows,
one row is retained and its entries are not missing. -/
theorem dropna_keeps_exactly_complete_rows_check :
    (dropna sampleFrame).nrows =
      ((List.range sampleFrame.nrows).filter
        fun i => !(sampleFrame.rowHasNA i)).length ∧
    (Col.floatCol [some (1 : ℚ)]).missingAt 0 = false :=
  ⟨(dropna_keeps_exactly_complete_rows sampleFrame (by decide)).1,
   (dropna_keeps_exactly_complete_rows sampleFrame (by decide)).2
     (Col.floatCol [some (1 : ℚ)]) (by decide) 0⟩

/-- Sum of a pointwise sum of two maps splits into two sums. -/
theorem list_sum_map_add {α : Type} (l : List α) (f g : α → ℚ) :
    (l.map fun x => f x + g x).sum = (l.map f).sum + (l.map g).sum := by
  induction l with
  | nil => simp
  | cons x xs ih =>
      simp only [List.map_cons, List.sum_cons, ih]
      ring

/-- Summing an indicator of a single month over the twelve month slots
yields exactly the selected value. -/
theorem sum_indicator_range :
    ∀ (n m : Nat) (c : ℚ), 1 ≤ m → m ≤ n →
      ((List.range n).map fun k => if m = k + 1 then c else 0).sum = c := by
  intro n
  induction n with
  | zero => intro m c h1 h2; omega
  | succ n ih =>
      intro m c h1 h2
      rw [List.range_succ, List.map_append, List.sum_append]
      by_cases hm : m = n + 1
      · have hz : ((List.range n).map
            fun k => if m = k + 1 then c else 0).sum = 0 := by
          apply List.sum_eq_zero
          intro x hx
          rw [List.mem_map] at hx
          obtain ⟨k, hk, rfl⟩ := hx
          rw [List.mem_range] at hk
          rw [if_neg]
          omega
        rw [hz]
        simp [hm]
      · have hmn : m ≤ n := by omega
        rw [ih m c h1 hmn]
        simp [hm]

/-- Effect of one more record on a pivot cell. -/
theorem monthly_cell_cons (o : Obs) (os : List Obs) (y m : Nat) :
    monthly_cell (o :: os) y m =
      (if o.date.year = y ∧ o.date.month = m then o.consumption else 0) +
        monthly_cell os y m := by
  unfold monthly_cell
  rw [List.filter_cons]
  by_cases hy : o.date.year = y
  · by_cases hm : o.date.month = m
    · simp [hy, hm]
    · simp [hy, hm]
  · simp [hy]

/-- C6: in the year-over-month pivot of total consumption, the sum of
the twelve month cells of a year equals the total consumption of the
cleaned records of that year. -/
theorem yearly_pivot_total (os : List Obs) (y : Nat)
    (hm : ∀ o ∈ os, 1 ≤ o.date.month ∧ o.date.month ≤ 12) :
    ((List.range 12).map fun k => monthly_cell os y (k + 1)).sum =
      ((os.filter fun o => o.date.year == y).map (·.consumption)).sum := by
  induction os with
  | nil => simp [monthly_cell]
  | cons o os ih =>
      have hmo := hm o (List.mem_cons_self o os)
      have hs : ∀ o2 ∈ os, 1 ≤ o2.date.month ∧ o2.date.month ≤ 12 :=
        fun o2 h2 => hm o2 (List.mem_cons_of_mem o h2)
      have hmapc : ((List.range 12).map
          fun k => monthly_cell (o :: os) y (k + 1)) =
          (List.range 12).map fun k =>
            (if o.date.year = y ∧ o.date.month = k + 1 then o.consumption
              else 0) + monthly_cell os y (k + 1) :=
        List.map_congr_left fun k _ => monthly_cell_cons o os y (k + 1)
      rw [hmapc, list_sum_map_add, ih hs]
      have hind : ((List.range 12).map fun k =>
          if o.date.year = y ∧ o.date.month = k + 1 then o.consumption
            else 0).sum = if o.date.year = y then o.consumption else 0 := by
        by_cases hy : o.date.year = y
        · have : ((List.range 12).map fun k =>
              if o.date.year = y ∧ o.date.month = k + 1 then o.consumption
                else 0) = (List.range 12).map fun k =>
              if o.date.month = k + 1 then o.consumption else 0 := by
            refine List.map_congr_left fun k _ => ?_
            simp [hy]
          rw [this, sum_indicator_range 12 o.date.month o.consumption
            hmo.1 hmo.2, if_pos hy]
        · have : ((List.range 12).map fun k =>
              if o.date.year = y ∧ o.date.month = k + 1 then o.consumption
                else 0) = (List.range 12).map fun _ => (0 : ℚ) := by
            refine List.map_congr_left fun k _ => ?_
            simp [hy]
          rw [this, if_neg hy]
          apply List.sum_eq_zero
          intro x hx
          rw [List.mem_map] at hx
          obtain ⟨k, _, rfl⟩ := hx
          rfl
      rw [hind, List.filter_cons]
      by_cases hy : o.date.year = y
      · simp [hy]
      · simp [hy]

/-- C6 witness: on the eight-day scenario, all in January 2015, the
twelve cells of year 2015 sum to the total consumption of 2015. -/
theorem yearly_pivot_total_check :
    ((List.range 12).map fun k => monthly_cell scenarioObs 2015 (k + 1)).sum =
      ((scenarioObs.filter fun o => o.date.year == 2015).map
        (·.consumption)).sum :=
  yearly_pivot_total scenarioObs 2015 (by decide)

/-- C8: a header-only input file loads successfully into a frame with
zero rows and zero Observations, and every derived aggregate of the
empty collection is empty instead of erroring. -/
theorem empty_input_yields_empty :
    load_and_preprocess_data (some emptyFile) =
      Except.ok ⟨canonicalNames,
        [Col.dateCol [], Col.floatCol [], Col.floatCol [], Col.floatCol [],
         Col.floatCol [], Col.boolCol [], Col.objCol []]⟩ ∧
    (DataFrame.mk canonicalNames
        [Col.dateCol [], Col.floatCol [], Col.floatCol [], Col.floatCol [],
         Col.floatCol [], Col.boolCol [], Col.objCol []]).nrows = 0 ∧
    toObs ⟨canonicalNames,
        [Col.dateCol [], Col.floatCol [], Col.floatCol [], Col.floatCol [],
         Col.floatCol [], Col.boolCol [], Col.objCol []]⟩ =
      some ([] : List Obs) ∧
    monthly_avg_precip [] = [] ∧
    weekday_groups [] = weekday_order.map (fun w => (w, [])) ∧
    monthly_data [] = [] ∧
    rolling_avg [] = [] ∧
    soft_trend [] = [] := by
  exact ⟨rfl, rfl, rfl, rfl, rfl, rfl, rfl, rfl⟩

/-- C9: each of the five chart computations copies the cached cleaned
collection and returns it unchanged beside its aggregate; running all
five in script order leaves the cache exactly as loaded. -/
theorem charts_do_not_mutate_cache (beer : List Obs) :
    (chart_precip beer).2 = beer ∧ (chart_weekday beer).2 = beer ∧
    (chart_yearly beer).2 = beer ∧ (chart_daily beer).2 = beer ∧
    (chart_soft beer).2 = beer ∧ (render_all beer).2 = beer :=
  ⟨rfl, rfl, rfl, rfl, rfl, rfl⟩
